import Mathlib

/-!
Verification development for the `hocon-rs` / `hocon-ls` repository.

The Rust parser (src/hocon-rs/src/parser.rs) is a nom-based recursive
descent parser over `&str`; we embed it shallowly as functions over
`List Char`.  A parser of result type `α` is a function
`List Char → Option (List Char × α)`: `none` models a nom `Err::Error`,
`some (rest, v)` models `Ok((rest, v))`.  None of the source combinators
use `cut`, so nom `Err::Failure` never arises and plain ordered
alternation over `Option` is faithful.

The f64 payload of `HoconNumber` is modelled by `F64`: a finite rational
(the exact value of the recognized decimal literal) or the `nan`/`inf`
exceptional values recognized by nom's `double`.  All number literals the
development evaluates are small integers, on which the exact-rational
reading and IEEE f64 agree.

The recursive grammar rules (`parse_value`, `array`, `parse_object`,
`object_field`, `key_value` and their repetition loops) are defined with
an explicit fuel parameter; every recursive call consumes at least one
character of input per bounded number of fuel steps, and the top-level
`parse` supplies fuel `16 * (length + 1)`, which exceeds the depth any
run on the given input can reach.
-/

namespace Hocon

abbrev Input := List Char

abbrev PRes (α : Type) := Option (Input × α)

/-- Character constants written by code point to keep the source text plain. -/
def quoteChar : Char := Char.ofNat 0x22

def openBraceChar : Char := Char.ofNat 0x7B

def closeBraceChar : Char := Char.ofNat 0x7D

def backslashChar : Char := Char.ofNat 0x5C

def backtickChar : Char := Char.ofNat 0x60

/-- `HoconString<'a>` — quoted or unquoted string slice. -/
inductive HoconString where
  | Quoted : List Char → HoconString
  | Unqouted : List Char → HoconString
  deriving DecidableEq, Repr

/-- `HoconInclusion<'a>` — file / url / classpath inclusion directives. -/
inductive HoconInclusion where
  | File : List Char → HoconInclusion
  | Url : List Char → HoconInclusion
  | Classpath : List Char → HoconInclusion
  deriving DecidableEq, Repr

/-- Exact decimal number `m * 10 ^ e`, kept with no trailing zeros in
`m` (and `e = 0` when `m = 0`), so that two decimal literals denoting
the same value are equal. -/
structure Dec where
  m : Int
  e : Int
  deriving DecidableEq, Repr

/-- Strip factors of ten from the significand; the fuel argument is an
upper bound on the number of strips (the significand itself suffices). -/
def stripTens : Nat → Nat → Int → Nat × Int
  | 0, m, e => (m, e)
  | f + 1, m, e =>
    if m ≠ 0 ∧ m % 10 = 0 then stripTens f (m / 10) (e + 1) else (m, e)

def mkDec (neg : Bool) (mant : Nat) (exp : Int) : Dec :=
  let (m, e) := stripTens mant mant exp
  if m = 0 then ⟨0, 0⟩
  else ⟨if neg then -(m : Int) else (m : Int), e⟩

/-- Model of the `f64` payload of `HoconNumber`.  A recognized decimal
literal is kept as its exact decimal value; the `nan` / `inf`
exceptional spellings recognized by nom's `double` get their own
constructors.  The exact-decimal reading agrees with IEEE f64 on every
literal this development evaluates. -/
inductive F64 where
  | finite : Dec → F64
  | nan : F64
  | inf : F64
  deriving DecidableEq, Repr

mutual

/-- `HoconValue<'a>` — the AST value type of the parser. -/
inductive HoconValue where
  | HoconString : HoconString → HoconValue
  | HoconNumber : F64 → HoconValue
  | HoconObject : List HoconField → HoconValue
  | HoconArray : List HoconValue → HoconValue
  | HoconBoolean : Bool → HoconValue
  | HoconNull : HoconValue
  | HoconInclude : HoconInclusion → HoconValue

/-- `HoconField<'a>` — one entry of an object. -/
inductive HoconField where
  | Include : HoconInclusion → HoconField
  | KeyValue : List Char → HoconValue → HoconField

end

/-- `HoconError` — the single parse-failure outcome.  The Rust variant
carries a diagnostic string produced by `convert_error`; the diagnostic
text plays no role in any behaviour, so it is not modelled. -/
inductive HoconError where
  | ParseError : HoconError
  deriving DecidableEq, Repr

/-- nom `tag`: consume exactly the given character sequence. -/
def tagP : List Char → Input → PRes Unit
  | [], input => some (input, ())
  | _ :: _, [] => none
  | t :: ts, c :: cs => if c = t then tagP ts cs else none

/-- nom `char`: consume exactly the given character. -/
def charP (c : Char) : Input → PRes Char
  | [] => none
  | x :: xs => if x = c then some (xs, c) else none

/-- nom `tag_no_case` (ASCII case-insensitive tag). -/
def tagNoCaseP : List Char → Input → PRes Unit
  | [], input => some (input, ())
  | _ :: _, [] => none
  | t :: ts, c :: cs => if c.toLower = t.toLower then tagNoCaseP ts cs else none

/-- `is_hocon_whitespace`: Rust `char::is_whitespace` (Unicode
White_Space) plus the legacy control characters listed in the source. -/
def rustIsWhitespace (c : Char) : Bool :=
  let n := c.toNat
  (0x09 ≤ n && n ≤ 0x0D) || n == 0x20 || n == 0x85 || n == 0xA0 || n == 0x1680 ||
    (0x2000 ≤ n && n ≤ 0x200A) || n == 0x2028 || n == 0x2029 || n == 0x202F ||
    n == 0x205F || n == 0x3000

def is_hocon_whitespace (c : Char) : Bool :=
  rustIsWhitespace c
    || c == Char.ofNat 0x09
    || c == Char.ofNat 0x0A
    || c == Char.ofNat 0x0B
    || c == Char.ofNat 0x0C
    || c == Char.ofNat 0x0D
    || c == Char.ofNat 0x1C
    || c == Char.ofNat 0x1D
    || c == Char.ofNat 0x1E
    || c == Char.ofNat 0x1F

/-- `whitespace`: `take_while(is_hocon_whitespace)`, discarding the run. -/
def whitespace (input : Input) : PRes Unit :=
  some (input.dropWhile is_hocon_whitespace, ())

/-- `null`: the `null` keyword. -/
def nullP (input : Input) : PRes HoconValue :=
  match tagP ("null".data) input with
  | some (rest, _) => some (rest, HoconValue.HoconNull)
  | none => none

/-- `boolean`: `true` / `false` keywords. -/
def boolean (input : Input) : PRes HoconValue :=
  match tagP ("true".data) input with
  | some (rest, _) => some (rest, HoconValue.HoconBoolean true)
  | none =>
    match tagP ("false".data) input with
    | some (rest, _) => some (rest, HoconValue.HoconBoolean false)
    | none => none

/-- The character class rejected inside an unquoted string (the `verify`
predicate in `unquoted_string`): HOCON whitespace or one of the
delimiter/operator characters. -/
def isUnquotedStop (c : Char) : Bool :=
  is_hocon_whitespace c
    || c == Char.ofNat 0x24 -- dollar
    || c == quoteChar
    || c == openBraceChar
    || c == closeBraceChar
    || c == Char.ofNat 0x5B -- left bracket
    || c == Char.ofNat 0x5D -- right bracket
    || c == Char.ofNat 0x3A -- colon
    || c == Char.ofNat 0x3D -- equals
    || c == Char.ofNat 0x2C -- comma
    || c == Char.ofNat 0x2B -- plus
    || c == Char.ofNat 0x23 -- hash
    || c == backtickChar
    || c == Char.ofNat 0x5E -- caret
    || c == Char.ofNat 0x3F -- question mark
    || c == Char.ofNat 0x21 -- exclamation mark
    || c == Char.ofNat 0x40 -- at sign
    || c == Char.ofNat 0x2A -- asterisk
    || c == Char.ofNat 0x26 -- ampersand
    || c == backslashChar

def slashChar : Char := Char.ofNat 0x2F

/-- The loop body of `unquoted_string`: repeatedly take a character as
long as the input does not start a `//` comment and the character is not
in the stop class.  Returns (taken, rest). -/
def unquotedTake : Input → List Char × Input
  | [] => ([], [])
  | c :: cs =>
    if c = slashChar ∧ cs.head? = some slashChar then ([], c :: cs)
    else if isUnquotedStop c then ([], c :: cs)
    else
      let (t, r) := unquotedTake cs
      (c :: t, r)

/-- `unquoted_string`: `recognize(many1(...))` — at least one character. -/
def unquoted_string (input : Input) : PRes (List Char) :=
  match unquotedTake input with
  | ([], _) => none
  | (t, r) => some (r, t)

/-- `is_string_char` (local to `quoted_string` in the source): the split
predicate — true on characters that terminate the body. -/
def is_string_char (c : Char) : Bool :=
  !(c.isAlpha || c.isDigit || c == Char.ofNat 0x2E)

/-- `quoted_string`: `delimited(tag("\""), split_at_position_complete(is_string_char), tag("\""))`.
`split_at_position_complete p` consumes the maximal prefix of characters
on which `p` is false, i.e. the maximal run of ASCII-alphanumeric-or-dot
characters. -/
def quoted_string (input : Input) : PRes (List Char) :=
  match input with
  | [] => none
  | c :: rest =>
    if c = quoteChar then
      let body := rest.takeWhile (fun x => !is_string_char x)
      match rest.dropWhile (fun x => !is_string_char x) with
      | [] => none
      | d :: rest2 => if d = quoteChar then some (rest2, body) else none
    else none

def digitsToNat (ds : List Char) : Nat :=
  ds.foldl (fun a c => a * 10 + (c.toNat - 48)) 0

def plusChar : Char := Char.ofNat 0x2B

def minusChar : Char := Char.ofNat 0x2D

def dotChar : Char := Char.ofNat 0x2E

/-- The optional-sign prefix used by nom's `recognize_float`:
returns (consumed sign characters, rest). -/
def signSplit (input : Input) : List Char × Input :=
  match input with
  | c :: cs => if c = plusChar ∨ c = minusChar then ([c], cs) else ([], input)
  | [] => ([], input)

/-- The mantissa alternation of nom's `recognize_float`:
`(digit1, opt((char('.'), opt(digit1))))` or `(char('.'), digit1)`.
Returns (rest, consumed characters). -/
def floatMantissa (input : Input) : PRes (List Char) :=
  let d := input.takeWhile Char.isDigit
  if d.isEmpty then
    match input with
    | c :: cs =>
      if c = dotChar then
        let f := cs.takeWhile Char.isDigit
        if f.isEmpty then none
        else some (cs.dropWhile Char.isDigit, c :: f)
      else none
    | [] => none
  else
    let r := input.dropWhile Char.isDigit
    match r with
    | c :: cs =>
      if c = dotChar then
        let f := cs.takeWhile Char.isDigit
        some (cs.dropWhile Char.isDigit, d ++ c :: f)
      else some (r, d)
    | [] => some ([], d)

def eChar : Char := Char.ofNat 0x65

def bigEChar : Char := Char.ofNat 0x45

/-- The optional exponent of nom's `recognize_float`:
`opt((e/E, opt(sign), digit1))`; an incomplete exponent consumes
nothing.  Returns (consumed characters, rest). -/
def floatExponent (input : Input) : List Char × Input :=
  match input with
  | c :: cs =>
    if c = eChar ∨ c = bigEChar then
      let (s, r) := signSplit cs
      let dg := r.takeWhile Char.isDigit
      if dg.isEmpty then ([], input)
      else (c :: (s ++ dg), r.dropWhile Char.isDigit)
    else ([], input)
  | [] => ([], input)

/-- nom `recognize_float`: optional sign, mantissa, optional exponent;
returns the recognized slice. -/
def recognize_float (input : Input) : PRes (List Char) :=
  let (s, r1) := signSplit input
  match floatMantissa r1 with
  | none => none
  | some (r2, m) =>
    let (e, r3) := floatExponent r2
    some (r3, s ++ m ++ e)

/-- Exact value of a slice recognized by `recognize_float`. -/
def evalDecimal (s : List Char) : Dec :=
  let (neg, r1) :=
    match s with
    | c :: cs =>
      if c = minusChar then (true, cs)
      else if c = plusChar then (false, cs) else (false, s)
    | [] => (false, s)
  let ip := r1.takeWhile Char.isDigit
  let r2 := r1.dropWhile Char.isDigit
  let (fp, r3) :=
    match r2 with
    | c :: cs =>
      if c = dotChar then (cs.takeWhile Char.isDigit, cs.dropWhile Char.isDigit)
      else (([] : List Char), r2)
    | [] => (([] : List Char), r2)
  let ex : Int :=
    match r3 with
    | c :: cs =>
      if c = eChar ∨ c = bigEChar then
        let (sg, r4) := signSplit cs
        let en : Int := (digitsToNat (r4.takeWhile Char.isDigit) : Int)
        if sg = [minusChar] then -en else en
      else 0
    | [] => 0
  mkDec neg (digitsToNat (ip ++ fp)) (ex - (fp.length : Int))

/-- nom `double` (complete): `recognize_float_or_exceptions` followed by
numeric conversion.  The exceptional alternatives recognize the `nan`
and `inf` spellings case-insensitively. -/
def double (input : Input) : PRes F64 :=
  match recognize_float input with
  | some (rest, s) => some (rest, F64.finite (evalDecimal s))
  | none =>
    match tagNoCaseP ("nan".data) input with
    | some (rest, _) => some (rest, F64.nan)
    | none =>
      match tagNoCaseP ("inf".data) input with
      | some (rest, _) => some (rest, F64.inf)
      | none => none

/-- `number`: `map(double, HoconNumber)`. -/
def number (input : Input) : PRes HoconValue :=
  match double input with
  | some (rest, v) => some (rest, HoconValue.HoconNumber v)
  | none => none

def openParenChar : Char := Char.ofNat 0x28

def closeParenChar : Char := Char.ofNat 0x29

/-- One alternative of the `include` rule:
`(tag(kind), delimited(char('('), map(quoted_string, mk), char(')')))`. -/
def includeKind (kind : List Char) (mk : List Char → HoconInclusion) (input : Input) :
    PRes HoconInclusion :=
  match tagP kind input with
  | none => none
  | some (r1, _) =>
    match charP openParenChar r1 with
    | none => none
    | some (r2, _) =>
      match quoted_string r2 with
      | none => none
      | some (r3, path) =>
        match charP closeParenChar r3 with
        | none => none
        | some (r4, _) => some (r4, mk path)

/-- `include`: `include <kind>("<path>")` with `<kind>` tried in the
source order url, file, classpath. -/
def include_directive (input : Input) : PRes HoconInclusion :=
  match tagP ("include".data) input with
  | none => none
  | some (r1, _) =>
    match whitespace r1 with
    | none => none
    | some (r2, _) =>
      match includeKind ("url".data) HoconInclusion.Url r2 with
      | some r => some r
      | none =>
        match includeKind ("file".data) HoconInclusion.File r2 with
        | some r => some r
        | none => includeKind ("classpath".data) HoconInclusion.Classpath r2

def commaChar : Char := Char.ofNat 0x2C

/-- `next_element_whitespace`: `(whitespace, opt(char(',')))`. -/
def next_element_whitespace (input : Input) : PRes Unit :=
  let r1 := input.dropWhile is_hocon_whitespace
  match charP commaChar r1 with
  | some (r2, _) => some (r2, ())
  | none => some (r1, ())

/-- `empty_content`: `map(all_consuming(whitespace), |_| HoconObject(vec![]))`. -/
def empty_content (input : Input) : PRes HoconValue :=
  match input.dropWhile is_hocon_whitespace with
  | [] => some ([], HoconValue.HoconObject [])
  | _ :: _ => none

def colonChar : Char := Char.ofNat 0x3A

def equalsChar : Char := Char.ofNat 0x3D

def leftBracketChar : Char := Char.ofNat 0x5B

def rightBracketChar : Char := Char.ofNat 0x5D

def newlineChar : Char := Char.ofNat 0x0A

/-- The separator of `key_value`:
`alt((char(':'), char('='), peek(char('{'))))` — the brace, when it is
the separator, is looked at but not consumed. -/
def key_value_separator (input : Input) : PRes Unit :=
  match charP colonChar input with
  | some (r, _) => some (r, ())
  | none =>
    match charP equalsChar input with
    | some (r, _) => some (r, ())
    | none =>
      match charP openBraceChar input with
      | some _ => some (input, ())
      | none => none

/-- The array element separator: `alt((char(','), char('\n')))`. -/
def array_separator (input : Input) : PRes Unit :=
  match charP commaChar input with
  | some (r, _) => some (r, ())
  | none =>
    match charP newlineChar input with
    | some (r, _) => some (r, ())
    | none => none

mutual

/-- `parse_value`: ordered alternation over the value grammar rules,
in the source order null, include, boolean, number, array, object,
unquoted string, quoted string. -/
def parse_value : Nat → Input → PRes HoconValue
  | 0, _ => none
  | fuel + 1, input =>
    match nullP input with
    | some r => some r
    | none =>
    match include_directive input with
    | some (rest, v) => some (rest, HoconValue.HoconInclude v)
    | none =>
    match boolean input with
    | some r => some r
    | none =>
    match number input with
    | some r => some r
    | none =>
    match arrayP fuel input with
    | some r => some r
    | none =>
    match parse_object fuel input with
    | some r => some r
    | none =>
    match unquoted_string input with
    | some (rest, s) => some (rest, HoconValue.HoconString (HoconString.Unqouted s))
    | none =>
    match quoted_string input with
    | some (rest, s) => some (rest, HoconValue.HoconString (HoconString.Quoted s))
    | none => none

/-- `array_element` (local to `array`): `preceded(whitespace, parse_value)`. -/
def array_element : Nat → Input → PRes HoconValue
  | 0, _ => none
  | fuel + 1, input =>
    parse_value fuel (input.dropWhile is_hocon_whitespace)

/-- `separated_list0(alt((char(','), char('\n'))), array_element)`:
the empty list on a failing first element. -/
def array_elements : Nat → Input → PRes (List HoconValue)
  | 0, _ => none
  | fuel + 1, input =>
    match array_element fuel input with
    | none => some (input, [])
    | some (rest, v) =>
      match array_elements_rest fuel rest with
      | some (r2, vs) => some (r2, v :: vs)
      | none => none

/-- The loop of `separated_list0`: a separator followed by an element;
if either fails the separator is not consumed and the list ends. -/
def array_elements_rest : Nat → Input → PRes (List HoconValue)
  | 0, _ => none
  | fuel + 1, input =>
    match array_separator input with
    | none => some (input, [])
    | some (r1, _) =>
      match array_element fuel r1 with
      | none => some (input, [])
      | some (r2, v) =>
        match array_elements_rest fuel r2 with
        | some (r3, vs) => some (r3, v :: vs)
        | none => none

/-- `array`: bracket-delimited separated list with an optional trailing
comma before the closing bracket. -/
def arrayP : Nat → Input → PRes HoconValue
  | 0, _ => none
  | fuel + 1, input =>
    match charP leftBracketChar input with
    | none => none
    | some (r1, _) =>
      match array_elements fuel r1 with
      | none => none
      | some (r2, vs) =>
        let r3 :=
          match charP commaChar r2 with
          | some (r, _) => r
          | none => r2
        match charP rightBracketChar r3 with
        | none => none
        | some (r4, _) => some (r4, HoconValue.HoconArray vs)

/-- `key_value`: whitespace, a quoted-or-unquoted key, whitespace, a
separator, whitespace, a value, then `next_element_whitespace`. -/
def key_value : Nat → Input → PRes (List Char × HoconValue)
  | 0, _ => none
  | fuel + 1, input =>
    let r1 := input.dropWhile is_hocon_whitespace
    let path? :=
      match quoted_string r1 with
      | some r => some r
      | none => unquoted_string r1
    match path? with
    | none => none
    | some (r2, path) =>
      let r3 := r2.dropWhile is_hocon_whitespace
      match key_value_separator r3 with
      | none => none
      | some (r4, _) =>
        let r5 := r4.dropWhile is_hocon_whitespace
        match parse_value fuel r5 with
        | none => none
        | some (r6, v) =>
          match next_element_whitespace r6 with
          | some (r7, _) => some (r7, (path, v))
          | none => none

/-- `object_field`: an include directive or a key-value pair. -/
def object_field : Nat → Input → PRes HoconField
  | 0, _ => none
  | fuel + 1, input =>
    match include_directive input with
    | some (rest, i) => some (rest, HoconField.Include i)
    | none =>
      match key_value fuel input with
      | some (rest, kv) => some (rest, HoconField.KeyValue kv.1 kv.2)
      | none => none

/-- `many0(object_field)` (the body of `parse_inner0`).  `object_field`
always consumes at least the key's first character, so nom's
zero-length-match loop guard never fires and is not modelled. -/
def object_fields : Nat → Input → PRes (List HoconField)
  | 0, _ => none
  | fuel + 1, input =>
    match object_field fuel input with
    | none => some (input, [])
    | some (rest, f) =>
      match object_fields fuel rest with
      | some (r2, fs) => some (r2, f :: fs)
      | none => none

/-- `parse_inner1`: `map(many1(object_field), HoconObject)`. -/
def parse_inner1 : Nat → Input → PRes HoconValue
  | 0, _ => none
  | fuel + 1, input =>
    match object_field fuel input with
    | none => none
    | some (rest, f) =>
      match object_fields fuel rest with
      | some (r2, fs) => some (r2, HoconValue.HoconObject (f :: fs))
      | none => none

/-- `parse_object`:
`alt((delimited(char('{'), parse_inner0, char('}')), parse_inner1))`.
When the brace-delimited alternative fails, `parse_inner1` is retried on
the original input. -/
def parse_object : Nat → Input → PRes HoconValue
  | 0, _ => none
  | fuel + 1, input =>
    match charP openBraceChar input with
    | none => parse_inner1 fuel input
    | some (r1, _) =>
      match object_fields fuel r1 with
      | none => none
      | some (r2, fs) =>
        match charP closeBraceChar r2 with
        | some (r3, _) => some (r3, HoconValue.HoconObject fs)
        | none => parse_inner1 fuel input

end

/-- Fuel supplied to the recursive grammar rules by `parse`: every
cycle through the mutual definitions consumes input, and sixteen fuel
steps per input character are more than any run can use. -/
def parseFuel (input : Input) : Nat := 16 * (input.length + 1)

/-- `parse`: `alt((empty_content, parse_object))`, discarding the
unconsumed remainder of the successful alternative. -/
def parse (input : Input) : Except HoconError HoconValue :=
  match empty_content input with
  | some (_, v) => Except.ok v
  | none =>
    match parse_object (parseFuel input) input with
    | some (_, v) => Except.ok v
    | none => Except.error HoconError.ParseError

/-- `OpenFile` (hocon-ls workspace): the Document — one text buffer and
the AST parsed from it.  The Rust struct stores the buffer alongside a
lifetime-transmuted borrow of it; the transmute is value-preserving, so
the model keeps the parsed tree (with its string slices materialized)
and the content. -/
structure OpenFile where
  hocon : HoconValue
  content : String

/-- `OpenFile::new`: parse the content; on success build the Document,
on failure return the error and build nothing. -/
def OpenFile.new (content : String) : Except HoconError OpenFile :=
  match parse content.data with
  | Except.ok hocon => Except.ok { hocon := hocon, content := content }
  | Except.error e => Except.error e

/-- `OpenFile::get_ast`. -/
def OpenFile.get_ast (f : OpenFile) : HoconValue := f.hocon

/-- `Workspace`: the identifier-keyed registry of open Documents.  The
Rust `HashMap<String, OpenFile>` is modelled as its lookup function. -/
structure Workspace where
  open_files : String → Option OpenFile

/-- `Workspace::new`. -/
def Workspace.new : Workspace := ⟨fun _ => none⟩

/-- `Workspace::open_file`: `OpenFile::new(content)?` then
`insert(path, ...)`.  The Rust method mutates `self` and returns
`Result<(), HoconError>`; the model returns the post-state paired with
the error, if any (`none` models `Ok(())`). -/
def Workspace.open_file (w : Workspace) (path : String) (content : String) :
    Workspace × Option HoconError :=
  match OpenFile.new content with
  | Except.ok f =>
    (⟨fun p => if p = path then some f else w.open_files p⟩, none)
  | Except.error e => (w, some e)

/-- `Workspace::get_ast`: `open_files.get(path).map(|file| file.get_ast())`. -/
def Workspace.get_ast (w : Workspace) (path : String) : Option HoconValue :=
  (w.open_files path).map OpenFile.get_ast

/-- Modelled from the spec: `close(id)` — removes and discards the
Document.  The Workspace in the source has only `open_file` and
`get_ast`; the close operation named by the spec is not present under
the sources, so it is modelled as removal of the registry entry. -/
def Workspace.close_file (w : Workspace) (path : String) : Workspace :=
  ⟨fun p => if p = path then none else w.open_files p⟩

/-- The parsed value of an integer numeral. -/
def numV (n : Int) : HoconValue := HoconValue.HoconNumber (F64.finite ⟨n, 0⟩)

/-- The array of the three numbers 1, 2, 3. -/
def arr123 : HoconValue := HoconValue.HoconArray [numV 1, numV 2, numV 3]

/-- The object with the single field `hello: "world"`. -/
def helloWorldObj : HoconValue :=
  HoconValue.HoconObject
    [HoconField.KeyValue ("hello".data)
      (HoconValue.HoconString (HoconString.Quoted ("world".data)))]

def spaceChar : Char := Char.ofNat 0x20

theorem takeWhile_all_append {p : Char → Bool} :
    ∀ (l : List Char) (r : List Char), (∀ c ∈ l, p c = true) →
      (∀ c, r.head? = some c → p c = false) →
      (l ++ r).takeWhile p = l ∧ (l ++ r).dropWhile p = r
  | [], r, _, hr => by
    cases r with
    | nil => simp
    | cons c cs =>
      have := hr c rfl
      simp [List.takeWhile_cons, List.dropWhile_cons, this]
  | a :: l, r, hl, hr => by
    have ha : p a = true := hl a (by simp)
    have ih := takeWhile_all_append l r (fun c hc => hl c (by simp [hc])) hr
    simp [List.takeWhile_cons, List.dropWhile_cons, ha, ih.1, ih.2]

theorem is_string_char_quote : is_string_char quoteChar = true := by decide

/-- Claim C1: when `parse` fails on the given text, `open_file` returns
the ParseFailure and installs nothing — the identifier-to-Document
mapping after the failed open is identical to the mapping before it. -/
theorem claim_C1_open_failure (w : Workspace) (path content : String) (e : HoconError)
    (h : parse content.data = Except.error e) :
    w.open_file path content = (w, some e) ∧
      ∀ id : String, (w.open_file path content).1.get_ast id = w.get_ast id := by
  have hopen : w.open_file path content = (w, some e) := by
    unfold Workspace.open_file OpenFile.new
    rw [h]
  exact ⟨hopen, fun id => by rw [hopen]⟩

theorem claim_C1_witness :
    parse ("[".data) = Except.error HoconError.ParseError ∧
      ((Workspace.new.open_file "a" "x: 1").1.open_file "a" "[" =
        ((Workspace.new.open_file "a" "x: 1").1, some HoconError.ParseError) ∧
        ∀ id : String,
          ((Workspace.new.open_file "a" "x: 1").1.open_file "a" "[").1.get_ast id =
            (Workspace.new.open_file "a" "x: 1").1.get_ast id) :=
  ⟨rfl, claim_C1_open_failure (Workspace.new.open_file "a" "x: 1").1 "a" "["
    HoconError.ParseError rfl⟩

/-- Claim C2, counterexample: at the public entry point the bare scalar
inputs are rejected — the top level accepts only objects or
whitespace-only content. -/
theorem claim_C2_counterexample :
    parse ("null".data) = Except.error HoconError.ParseError ∧
      parse ("true".data) = Except.error HoconError.ParseError ∧
      parse ("false".data) = Except.error HoconError.ParseError :=
  ⟨rfl, rfl, rfl⟩

/-- Claim C2 (amended): the `null` and `boolean` grammar rules yield the
corresponding scalar values, and in value position the public parse
produces them; the top-level parse itself rejects bare scalars. -/
theorem claim_C2_scalars :
    nullP ("null".data) = some ([], HoconValue.HoconNull) ∧
      boolean ("true".data) = some ([], HoconValue.HoconBoolean true) ∧
      boolean ("false".data) = some ([], HoconValue.HoconBoolean false) ∧
      parse ("k = null".data) =
        Except.ok (HoconValue.HoconObject
          [HoconField.KeyValue ("k".data) HoconValue.HoconNull]) ∧
      parse ("k = true".data) =
        Except.ok (HoconValue.HoconObject
          [HoconField.KeyValue ("k".data) (HoconValue.HoconBoolean true)]) ∧
      parse ("k = false".data) =
        Except.ok (HoconValue.HoconObject
          [HoconField.KeyValue ("k".data) (HoconValue.HoconBoolean false)]) :=
  ⟨rfl, rfl, rfl, rfl, rfl, rfl⟩

/-- Claim C3, counterexample: a bare array is rejected at the public
entry point. -/
theorem claim_C3_counterexample :
    parse ("[1,2,3]".data) = Except.error HoconError.ParseError := rfl

/-- Claim C3 (amended): separator equivalence holds for the array rule
and, through value position, at the public entry point: comma-separated,
newline-separated and trailing-comma forms yield the identical Array of
the three Numbers. -/
theorem claim_C3_array_separators :
    arrayP 200 ("[1,2,3]".data) = some ([], arr123) ∧
      arrayP 200 ("[1\n2\n3]".data) = some ([], arr123) ∧
      arrayP 200 ("[1,2,3,]".data) = some ([], arr123) ∧
      parse ("k = [1,2,3]".data) =
        Except.ok (HoconValue.HoconObject [HoconField.KeyValue ("k".data) arr123]) ∧
      parse ("k = [1\n2\n3]".data) =
        Except.ok (HoconValue.HoconObject [HoconField.KeyValue ("k".data) arr123]) ∧
      parse ("k = [1,2,3,]".data) =
        Except.ok (HoconValue.HoconObject [HoconField.KeyValue ("k".data) arr123]) :=
  ⟨rfl, rfl, rfl, rfl, rfl, rfl⟩

/-- Claim C4, counterexample: the quoted-string lexer rejects a body
consisting of a space (not alphanumeric, not a dot), and accepts the
body `test` (made of alphanumerics) — the opposite of the claimed
acceptance rule. -/
theorem claim_C4_counterexample :
    quoted_string [quoteChar, spaceChar, quoteChar] = none ∧
      quoted_string ("\"test\"".data) = some ([], "test".data) :=
  ⟨rfl, rfl⟩

/-- Claim C4 (amended): the quoted-string lexer accepts exactly the
inputs made of a double quote, a body that is the maximal run of
characters that are ASCII-alphanumeric or a dot, and a closing double
quote, and returns that body. -/
theorem claim_C4_quoted_string_spec (input rest body : List Char) :
    quoted_string input = some (rest, body) ↔
      (input = quoteChar :: (body ++ quoteChar :: rest) ∧
        ∀ c ∈ body, is_string_char c = false) := by
  constructor
  · intro h
    cases input with
    | nil => simp [quoted_string] at h
    | cons c t =>
      by_cases hc : c = quoteChar
      · subst hc
        cases hd : t.dropWhile (fun x => !is_string_char x) with
        | nil => simp [quoted_string, hd] at h
        | cons d r2 =>
          by_cases hdq : d = quoteChar
          · subst hdq
            simp [quoted_string, hd] at h
            obtain ⟨h1, h2⟩ := h
            constructor
            · have := List.takeWhile_append_dropWhile
                (p := fun x => !is_string_char x) (l := t)
              rw [h2, hd, h1] at this
              rw [this]
            · intro x hx
              rw [← h2] at hx
              have := List.mem_takeWhile_imp hx
              simpa using this
          · simp [quoted_string, hd, hdq] at h
      · simp [quoted_string, hc] at h
  · rintro ⟨hin, hb⟩
    subst hin
    have hsplit := takeWhile_all_append (p := fun x => !is_string_char x)
      body (quoteChar :: rest)
      (fun c hc => by simp [hb c hc]) (fun c hc => by
        simp at hc
        subst hc
        simp [is_string_char_quote])
    simp [quoted_string, hsplit.1, hsplit.2]

theorem claim_C4_witness :
    quoted_string ("\"a.b\"xyz".data) = some ("xyz".data, "a.b".data) :=
  (claim_C4_quoted_string_spec _ _ _).mpr (by decide)

/-- Claim C5: a brace-less top-level object with at least one field
parses to the same tree as the brace-delimited form of the same
fields. -/
theorem claim_C5_braceless :
    parse ("hello: \"world\"".data) = Except.ok helloWorldObj ∧
      parse ("\x7b hello: \"world\" \x7d".data) = Except.ok helloWorldObj ∧
      parse ("a: 1, b: 2".data) =
        Except.ok (HoconValue.HoconObject
          [HoconField.KeyValue ("a".data) (numV 1),
            HoconField.KeyValue ("b".data) (numV 2)]) ∧
      parse ("\x7b a: 1, b: 2 \x7d".data) =
        Except.ok (HoconValue.HoconObject
          [HoconField.KeyValue ("a".data) (numV 1),
            HoconField.KeyValue ("b".data) (numV 2)]) :=
  ⟨rfl, rfl, rfl, rfl⟩

/-- Claim C6: opening an identifier with text on which `parse` succeeds
and looking the identifier up returns the directly parsed tree; closing
the identifier and looking it up returns nothing. -/
theorem claim_C6_lifecycle (w : Workspace) (id text : String) (v : HoconValue)
    (h : parse text.data = Except.ok v) :
    (w.open_file id text).1.get_ast id = some v ∧
      (((w.open_file id text).1.close_file id).get_ast id = none) := by
  unfold Workspace.open_file OpenFile.new
  rw [h]
  constructor
  · simp [Workspace.get_ast, OpenFile.get_ast]
  · simp [Workspace.close_file, Workspace.get_ast]

theorem claim_C6_witness :
    parse ("x = true".data) =
      Except.ok (HoconValue.HoconObject
        [HoconField.KeyValue ("x".data) (HoconValue.HoconBoolean true)]) ∧
      ((Workspace.new.open_file "a" "x = true").1.get_ast "a" =
        some (HoconValue.HoconObject
          [HoconField.KeyValue ("x".data) (HoconValue.HoconBoolean true)]) ∧
        (((Workspace.new.open_file "a" "x = true").1.close_file "a").get_ast "a" =
          none)) :=
  ⟨rfl, claim_C6_lifecycle Workspace.new "a" "x = true" _ rfl⟩

/-- Claim C7: an include directive is accepted both as a standalone
Field (merged in order into the enclosing object's field list) and as
the value of a key-value pair; the url and classpath kinds are accepted
by the include rule as well. -/
theorem claim_C7_include :
    parse ("include file(\"t.conf\")\nhello = \"world\"".data) =
      Except.ok (HoconValue.HoconObject
        [HoconField.Include (HoconInclusion.File ("t.conf".data)),
          HoconField.KeyValue ("hello".data)
            (HoconValue.HoconString (HoconString.Quoted ("world".data)))]) ∧
      parse ("hello = include file(\"t.conf\")".data) =
        Except.ok (HoconValue.HoconObject
          [HoconField.KeyValue ("hello".data)
            (HoconValue.HoconInclude (HoconInclusion.File ("t.conf".data)))]) ∧
      include_directive ("include url(\"u\")".data) =
        some ([], HoconInclusion.Url ("u".data)) ∧
      include_directive ("include classpath(\"c.p\")".data) =
        some ([], HoconInclusion.Classpath ("c.p".data)) :=
  ⟨rfl, rfl, rfl, rfl⟩

/-- Claim C8: parsed objects are ordered field sequences in textual
order, and duplicate keys are preserved as separate entries. -/
theorem claim_C8_field_order :
    parse ("\x7b a: 1, b: 2 \x7d".data) =
      Except.ok (HoconValue.HoconObject
        [HoconField.KeyValue ("a".data) (numV 1),
          HoconField.KeyValue ("b".data) (numV 2)]) ∧
      parse ("\x7b a: 1, a: 2 \x7d".data) =
        Except.ok (HoconValue.HoconObject
          [HoconField.KeyValue ("a".data) (numV 1),
            HoconField.KeyValue ("a".data) (numV 2)]) :=
  ⟨rfl, rfl⟩

/-- Claim C9: every input consisting only of characters of the HOCON
whitespace set parses successfully to the Object with zero fields. -/
theorem claim_C9_whitespace_parses_empty (input : Input)
    (h : ∀ c ∈ input, is_hocon_whitespace c = true) :
    parse input = Except.ok (HoconValue.HoconObject []) := by
  have hd : input.dropWhile is_hocon_whitespace = [] :=
    List.dropWhile_eq_nil_iff.mpr h
  unfold parse empty_content
  rw [hd]

theorem claim_C9_witness :
    (∀ c ∈ ("   ".data), is_hocon_whitespace c = true) ∧
      parse ("   ".data) = Except.ok (HoconValue.HoconObject []) ∧
      parse ("".data) = Except.ok (HoconValue.HoconObject []) :=
  ⟨by decide, claim_C9_whitespace_parses_empty _ (by decide),
    claim_C9_whitespace_parses_empty _ (by decide)⟩

/-- Claim C10: when the object alternative succeeds, `parse` does not
require the whole input to be consumed: on an object prefix followed by
unconsumable text it returns the prefix's tree and discards the
remainder, while the whitespace alternative alone demands full
consumption. -/
theorem claim_C10_remainder_discarded :
    parse_object (parseFuel ("a: 1 \x7d\x7d\x7d".data)) ("a: 1 \x7d\x7d\x7d".data) =
      some ("\x7d\x7d\x7d".data,
        HoconValue.HoconObject [HoconField.KeyValue ("a".data) (numV 1)]) ∧
      parse ("a: 1 \x7d\x7d\x7d".data) =
        Except.ok (HoconValue.HoconObject [HoconField.KeyValue ("a".data) (numV 1)]) ∧
      empty_content ("a: 1 \x7d\x7d\x7d".data) = none :=
  ⟨rfl, rfl, rfl⟩

end Hocon
